import Mathlib

/-!
# Verification of `param_logger.go` (gobuffalo/mw-paramlogger)

A shallow embedding of the parameter-logging middleware.

* `url.Values` (`map[string][]string`) is an association list with unique
  keys; `m.lookup k` is `m[k]` together with the presence bit, `m.insert k v`
  is `m[k] = v`, and a `range` loop visits `m.entries`.  Go compares and
  serialises maps by content, so two mappings are the same when every key
  looks up to the same result.  Go leaves the order of a `range` over a map
  open; `maskSecrets_range_order` shows the order is not observable.  A
  `[]string` is a list, so a nil and an empty slice are not told apart.
* The package variable `ParameterExclusionList` is mutable, so every function
  reading it takes its current value `excl` as an argument.
* `strings.EqualFold` and `json.Marshal` belong to the Go standard library;
  the functions that call them take them as arguments (`fold`, `marshalForm`,
  `marshalParams`).
-/

namespace ParamLogger

/-- Go's `url.Values`, i.e. `map[string][]string`. -/
abbrev Values := AList (fun _ : String => List String)

/-- The default value of the package variable `ParameterExclusionList`. -/
def ParameterExclusionList : List String :=
  ["Password", "PasswordConfirmation", "CreditCard", "CVC"]

/-- The package variable `filteredIndicator`. -/
def filteredIndicator : List String := ["[FILTERED]"]

/-- Upper-case ASCII letters are mapped to lower case, every other character
is kept. -/
def foldChar (c : Char) : Char :=
  if 'A' ≤ c ∧ c ≤ 'Z' then Char.ofNat (c.toNat + 32) else c

/-- The ASCII path of the standard library's `strings.EqualFold`: the two
strings have the same length and agree position by position up to the case
of ASCII letters.  On strings of ASCII characters this is `strings.EqualFold`;
characters outside ASCII are compared exactly here. -/
def EqualFold (s t : String) : Bool :=
  s.data.map foldChar == t.data.map foldChar

/-- The loop labelled `exclcheck` of `maskSecrets`, run for one entry
`key, values` of the form over the remaining exclusion entries: every
iteration first stores `copy[key] = values`, and on a match overwrites it with
`filteredIndicator` and leaves the loop. -/
def exclcheck (fold : String → String → Bool) (key : String) (values : List String) :
    List String → Values → Values
  | [], copy => copy
  | excluded :: rest, copy =>
    let copy := copy.insert key values
    if fold key excluded then copy.insert key filteredIndicator
    else exclcheck fold key values rest copy

/-- The function `maskSecrets`: starting from an empty `copy`, the outer loop
ranges over the entries of `form` and runs `exclcheck` for each. -/
def maskSecrets (fold : String → String → Bool) (excl : List String) (form : Values) : Values :=
  form.entries.foldl (fun copy kv => exclcheck fold kv.1 kv.2 excl copy) ∅

/-! ## Multipart forms -/

/-- Go's `multipart.FileHeader`; the middleware reads `Filename` only. -/
structure FileHeader where
  Filename : String
  Size : Nat
deriving DecidableEq

/-- Go's `multipart.Form`: `Value` is a `map[string][]string` and `File` a
`map[string][]*FileHeader`. -/
structure Form where
  Value : Values
  File : AList (fun _ : String => List FileHeader)

/-- The standard library's `url.Values.Add`:
`v[key] = append(v[key], value)`. -/
def Add (v : Values) (key value : String) : Values :=
  v.insert key ((v.lookup key).getD [] ++ [value])

/-- One of the two nested loops of `multipartParamLogger`:
`for k, v := range m { for _, vv := range v { uv.Add(k, g(vv)) } }`. -/
def rangeAdd {β : Type} (g : β → String) (m : AList (fun _ : String => List β))
    (uv : Values) : Values :=
  m.entries.foldl (fun uv kv => kv.2.foldl (fun uv vv => Add uv kv.1 (g vv)) uv) uv

/-- The local `uv` of `multipartParamLogger` when it is handed to
`addFormFieldTo`: starting from `url.Values{}`, the loop over `mp.Value` adds
every value and the loop over `mp.File` then adds every `Filename`. -/
def multipartParamLogger_uv (mp : Form) : Values :=
  rangeAdd FileHeader.Filename mp.File (rangeAdd (fun vv => vv) mp.Value ∅)

/-! ## The middleware -/

/-- A Go `error` value; `withStack` is the wrapper added by
`errors.WithStack`. -/
inductive GoError where
  | mk (msg : String)
  | withStack (err : GoError)
deriving DecidableEq

/-- The fields of `*http.Request` the middleware reads. -/
structure Request where
  Method : String
  Form : Values
  MultipartForm : Option ParamLogger.Form

/-- A `buffalo.Context` as the middleware sees it: the request, the value
returned by `c.Params()` (any type `P` implementing `buffalo.ParamValues`),
and the two logging effects recorded as the calls made so far to
`c.LogField` (`fields`) and to `c.Logger().Error` (`errors`). -/
structure Context (P : Type) where
  Request : Request
  Params : P
  fields : List (String × String)
  errors : List GoError

/-- The call `c.LogField(key, value)`. -/
def Context.LogField {P : Type} (c : Context P) (key value : String) : Context P :=
  { c with fields := c.fields ++ [(key, value)] }

/-- The call `c.Logger().Error(err)`. -/
def Context.LoggerError {P : Type} (c : Context P) (err : GoError) : Context P :=
  { c with errors := c.errors ++ [err] }

/-- A `buffalo.Handler`: it may act on the context and returns `nil` (`none`)
or an error. -/
abbrev Handler (P : Type) := Context P → Context P × Option GoError

/-- The function `addFormFieldTo`; `marshal` is `json.Marshal` on
`url.Values`. -/
def addFormFieldTo {P : Type} (fold : String → String → Bool) (excl : List String)
    (marshal : Values → Except GoError String) (c : Context P) (form : Values) :
    Context P × Option GoError :=
  let maskedForm := maskSecrets fold excl form
  match marshal maskedForm with
  | .error err => (c, some err)
  | .ok b => (c.LogField "form" b, none)

/-- The function `multipartParamLogger`. -/
def multipartParamLogger {P : Type} (fold : String → String → Bool) (excl : List String)
    (marshal : Values → Except GoError String) (mp : Form) (c : Context P) :
    Context P × Option GoError :=
  let uv := multipartParamLogger_uv mp
  match addFormFieldTo fold excl marshal c uv with
  | (c, some err) => (c, some (GoError.withStack err))
  | (c, none) => (c, none)

/-- The function `logForm`. -/
def logForm {P : Type} (fold : String → String → Bool) (excl : List String)
    (marshal : Values → Except GoError String) (c : Context P) :
    Context P × Option GoError :=
  match c.Request.MultipartForm with
  | some mp => multipartParamLogger fold excl marshal mp c
  | none =>
    match addFormFieldTo fold excl marshal c c.Request.Form with
    | (c, some err) => (c, some (GoError.withStack err))
    | (c, none) => (c, none)

/-- The deferred function of `Middleware`, run on the context the wrapped
handler left behind.  `marshalParams` is `json.Marshal` on the value of
`c.Params()`; when it fails, `b` is nil and `string(b)` is the empty
string. -/
def deferredLog {P : Type} (fold : String → String → Bool) (excl : List String)
    (marshalForm : Values → Except GoError String) (marshalParams : P → Except GoError String)
    (c : Context P) : Context P :=
  let c :=
    if c.Request.Method != "GET" then
      match logForm fold excl marshalForm c with
      | (c, some err) => c.LoggerError err
      | (c, none) => c
    else c
  match marshalParams c.Params with
  | .error err => (c.LoggerError err).LogField "params" ""
  | .ok b => c.LogField "params" b

/-- The function `Middleware`: the handler it returns evaluates `next(c)`,
then runs the deferred function, and returns the value of `next(c)`. -/
def Middleware {P : Type} (fold : String → String → Bool) (excl : List String)
    (marshalForm : Values → Except GoError String) (marshalParams : P → Except GoError String)
    (next : Handler P) : Handler P := fun c =>
  let (c, result) := next c
  (deferredLog fold excl marshalForm marshalParams c, result)

/-! ## Sample inputs -/

/-- The form `password=secret123&email=a@b.com` of scenario 1. -/
def loginForm : Values :=
  ((∅ : Values).insert "password" ["secret123"]).insert "email" ["a@b.com"]

/-- The multipart structure with value field `note = hi` and one file
`pic.png` uploaded under `avatar`. -/
def noteAvatarForm : Form where
  Value := (∅ : Values).insert "note" ["hi"]
  File := (∅ : AList (fun _ : String => List FileHeader)).insert "avatar" [⟨"pic.png", 2048⟩]

/-- A multipart structure whose value field `note` has an empty value
sequence, and with no file field. -/
def emptyNoteForm : Form where
  Value := (∅ : Values).insert "note" []
  File := ∅

/-- The multipart structure of scenario 3: the text field `CVC = 123` and one
file `secret.pdf` uploaded under `attachment`. -/
def attachmentForm : Form where
  Value := (∅ : Values).insert "CVC" ["123"]
  File := (∅ : AList (fun _ : String => List FileHeader)).insert "attachment" [⟨"secret.pdf", 4096⟩]

/-- The mapping scenario 3 expects under `form`, with the key `cvc`. -/
def attachmentLowerKey : Values :=
  ((∅ : Values).insert "attachment" ["secret.pdf"]).insert "cvc" ["[FILTERED]"]

/-- The mapping of scenario 3 with the key `CVC` as submitted. -/
def attachmentSameKey : Values :=
  ((∅ : Values).insert "attachment" ["secret.pdf"]).insert "CVC" ["[FILTERED]"]

/-- A string between double quotes. -/
def quoted (s : String) : String := "\"" ++ s ++ "\""

/-- A sample instance of the `json.Marshal` argument, used to run the model
on concrete requests: it always succeeds and writes the entries in stored
order as `"key":["v1","v2"]` without escaping. -/
def sampleMarshal (v : Values) : Except GoError String :=
  .ok ("\x7b" ++ ",".intercalate (v.entries.map fun kv =>
    quoted kv.1 ++ ":[" ++ ",".intercalate (kv.2.map quoted) ++ "]") ++ "\x7d")

/-- A sample instance of the `json.Marshal` argument that fails, standing
for `json.Marshal` on a value it cannot encode (`c.Params()` returns an
interface value, whose own `MarshalJSON` may return an error). -/
def failingMarshal {P : Type} (_ : P) : Except GoError String :=
  .error (GoError.mk "json: unsupported value")

/-- A `GET` request whose resolved parameters are `password=hunter2`, with
nothing logged yet. -/
def getContext : Context Values where
  Request := ⟨"GET", (∅ : Values).insert "password" ["hunter2"], none⟩
  Params := (∅ : Values).insert "password" ["hunter2"]
  fields := []
  errors := []

/-- A handler that leaves the context alone and returns an error. -/
def failingHandler : Handler Values := fun c => (c, some (GoError.mk "handler failed"))

/-- A handler that leaves the context alone and returns `nil`. -/
def okHandler : Handler Values := fun c => (c, none)

/-- The request of scenario 3 as the deferred function finds it: method
`POST`, the multipart structure `attachmentForm`, no resolved parameter and
nothing logged yet. -/
def attachmentContext : Context Values where
  Request := ⟨"POST", ∅, some attachmentForm⟩
  Params := ∅
  fields := []
  errors := []

/-! ## What `maskSecrets` stores under each key -/

theorem lookup_exclcheck_nil (fold : String → String → Bool) (key : String)
    (values : List String) (copy : Values) (k : String) :
    (exclcheck fold key values [] copy).lookup k = copy.lookup k := rfl

theorem lookup_exclcheck_ne (fold : String → String → Bool) (key : String)
    (values : List String) (excl : List String) (copy : Values) (k : String) (h : k ≠ key) :
    (exclcheck fold key values excl copy).lookup k = copy.lookup k := by
  induction excl generalizing copy with
  | nil => rfl
  | cons e rest ih =>
    simp only [exclcheck]
    split
    · rw [AList.lookup_insert_ne h, AList.lookup_insert_ne h]
    · rw [ih, AList.lookup_insert_ne h]

theorem lookup_exclcheck_self (fold : String → String → Bool) (key : String)
    (values : List String) (excl : List String) (copy : Values) (h : excl ≠ []) :
    (exclcheck fold key values excl copy).lookup key =
      some (if excl.any (fold key) then filteredIndicator else values) := by
  induction excl generalizing copy with
  | nil => exact absurd rfl h
  | cons e rest ih =>
    simp only [exclcheck, List.any_cons]
    by_cases he : fold key e = true
    · simp [he, AList.lookup_insert]
    · simp only [he, Bool.false_eq_true, if_false, Bool.false_or]
      cases rest with
      | nil => simp [exclcheck, AList.lookup_insert]
      | cons e2 rest2 => exact ih _ (List.cons_ne_nil _ _)

theorem lookup_foldl_exclcheck (fold : String → String → Bool) (excl : List String)
    (h : excl ≠ []) (k : String) :
    ∀ (l : List (Sigma (fun _ : String => List String))) (copy : Values), l.NodupKeys →
      (l.foldl (fun copy kv => exclcheck fold kv.1 kv.2 excl copy) copy).lookup k =
        match l.dlookup k with
        | some v => some (if excl.any (fold k) then filteredIndicator else v)
        | none => copy.lookup k
  | [], copy, _ => by simp
  | ⟨key, values⟩ :: l, copy, hnd => by
    rw [List.nodupKeys_cons] at hnd
    rw [List.foldl_cons, lookup_foldl_exclcheck fold excl h k l _ hnd.2]
    by_cases hk : k = key
    · subst hk
      have hnone : l.dlookup k = none := List.dlookup_eq_none.mpr hnd.1
      simp [hnone, lookup_exclcheck_self fold k values excl copy h]
    · rw [List.dlookup_cons_ne _ _ hk]
      cases l.dlookup k with
      | some v => rfl
      | none => exact lookup_exclcheck_ne fold key values excl copy k hk

/-- With a non-empty exclusion list, `maskSecrets` stores under every key of
the form the filtered indicator when some entry matches, its values otherwise,
and stores nothing under any other key. -/
theorem lookup_maskSecrets (fold : String → String → Bool) (excl : List String)
    (h : excl ≠ []) (form : Values) (k : String) :
    (maskSecrets fold excl form).lookup k =
      (form.lookup k).map (fun v => if excl.any (fold k) then filteredIndicator else v) := by
  unfold maskSecrets
  rw [lookup_foldl_exclcheck fold excl h k form.entries ∅ form.nodupKeys]
  show _ = Option.map _ (form.entries.dlookup k)
  cases form.entries.dlookup k <;> simp

/-- With an empty exclusion list the inner loop never runs, so `maskSecrets`
returns the empty mapping. -/
theorem maskSecrets_nil (fold : String → String → Bool) (form : Values) :
    maskSecrets fold [] form = ∅ := by
  unfold maskSecrets
  generalize (∅ : Values) = copy
  induction form.entries generalizing copy with
  | nil => rfl
  | cons kv l ih => simp only [List.foldl_cons, exclcheck]; exact ih copy

/-- With a non-empty exclusion list, a key that matches no entry keeps its
value sequence. -/
theorem maskSecrets_keeps_unmatched (fold : String → String → Bool) (excl : List String)
    (h : excl ≠ []) (form : Values) (key : String)
    (hno : ∀ e ∈ excl, fold key e = false) :
    (maskSecrets fold excl form).lookup key = form.lookup key := by
  have hany : excl.any (fold key) = false := by
    rw [List.any_eq_false]; intro e he; simp [hno e he]
  rw [lookup_maskSecrets fold excl h, hany]
  cases form.lookup key <;> simp

/-- With a non-empty exclusion list, the output has exactly the keys of the
input. -/
theorem mem_maskSecrets (fold : String → String → Bool) (excl : List String)
    (h : excl ≠ []) (form : Values) (key : String) :
    key ∈ maskSecrets fold excl form ↔ key ∈ form := by
  rw [← AList.lookup_isSome, ← AList.lookup_isSome, lookup_maskSecrets fold excl h]
  cases form.lookup key <;> simp

/-- The order in which `range form` visits the entries is not observable:
two forms with the same entries in a different order are masked to the same
mapping. -/
theorem maskSecrets_range_order (fold : String → String → Bool) (excl : List String)
    (form₁ form₂ : Values) (hperm : form₁.entries.Perm form₂.entries) (k : String) :
    (maskSecrets fold excl form₁).lookup k = (maskSecrets fold excl form₂).lookup k := by
  by_cases h : excl = []
  · subst h
    rw [maskSecrets_nil, maskSecrets_nil]
  · rw [lookup_maskSecrets fold excl h, lookup_maskSecrets fold excl h,
      AList.perm_lookup hperm]

/-! ## Redaction -/

/-- C1: a key of the input that matches some entry of the exclusion list
under the case-insensitive comparison is associated in the output of
`maskSecrets` with exactly `["[FILTERED]"]`, whatever its values were and
whatever the exclusion list and the comparison are. -/
theorem maskSecrets_redacts (fold : String → String → Bool) (excl : List String)
    (form : Values) (key : String) (hkey : key ∈ form)
    (hmatch : ∃ e ∈ excl, fold key e = true) :
    (maskSecrets fold excl form).lookup key = some ["[FILTERED]"] := by
  obtain ⟨e, he, hfold⟩ := hmatch
  have hne : excl ≠ [] := List.ne_nil_of_mem he
  have hany : excl.any (fold key) = true := List.any_eq_true.mpr ⟨e, he, hfold⟩
  rw [lookup_maskSecrets fold excl hne, hany]
  obtain ⟨v, hv⟩ := Option.isSome_iff_exists.mp (AList.lookup_isSome.mpr hkey)
  rw [hv]; rfl

/-- C1 at the key `PaSsWoRd` against the default list's entry `Password`. -/
theorem maskSecrets_redacts_witness :
    "PaSsWoRd" ∈ (∅ : Values).insert "PaSsWoRd" ["hunter2"] ∧
    (∃ e ∈ ParameterExclusionList, EqualFold "PaSsWoRd" e = true) ∧
    (maskSecrets EqualFold ParameterExclusionList
      ((∅ : Values).insert "PaSsWoRd" ["hunter2"])).lookup "PaSsWoRd" = some ["[FILTERED]"] :=
  ⟨by decide, ⟨"Password", by decide, by decide⟩,
    maskSecrets_redacts EqualFold ParameterExclusionList _ "PaSsWoRd" (by decide)
      ⟨"Password", by decide, by decide⟩⟩

/-- C2 at the failing input: with the exclusion list emptied, the key `email`
of the form `password=secret123&email=a@b.com`, which matches no entry, is
absent from the output of `maskSecrets` instead of keeping `["a@b.com"]`. -/
theorem maskSecrets_emptied_list_loses_email :
    loginForm.lookup "email" = some ["a@b.com"] ∧
    (maskSecrets EqualFold [] loginForm).lookup "email" = none := by
  decide

/-- C3 at the failing input: with the exclusion list emptied, the output of
`maskSecrets` on the form `password=secret123&email=a@b.com` has no key at
all, while the input has the keys `email` and `password`. -/
theorem maskSecrets_emptied_list_loses_keys :
    loginForm.keys = ["email", "password"] ∧
    (maskSecrets EqualFold [] loginForm).keys = [] := by
  decide

/-- C4: redaction is idempotent: for every exclusion list and comparison,
`maskSecrets (maskSecrets form)` and `maskSecrets form` are the same mapping
(every key looks up to the same result in both). -/
theorem maskSecrets_idempotent (fold : String → String → Bool) (excl : List String)
    (form : Values) (k : String) :
    (maskSecrets fold excl (maskSecrets fold excl form)).lookup k =
      (maskSecrets fold excl form).lookup k := by
  by_cases h : excl = []
  · subst h
    rw [maskSecrets_nil, maskSecrets_nil]
  · rw [lookup_maskSecrets fold excl h, lookup_maskSecrets fold excl h]
    cases form.lookup k with
    | none => rfl
    | some v => by_cases hany : excl.any (fold k) = true <;> simp [hany]

/-- C10: the order of the exclusion list is not observable: under two
exclusion lists that are permutations of each other `maskSecrets` returns the
same mapping (every key looks up to the same result in both). -/
theorem maskSecrets_perm (fold : String → String → Bool) (excl₁ excl₂ : List String)
    (form : Values) (k : String) (hperm : excl₁.Perm excl₂) :
    (maskSecrets fold excl₁ form).lookup k = (maskSecrets fold excl₂ form).lookup k := by
  by_cases h : excl₁ = []
  · subst h
    rw [List.Perm.nil_eq hperm]
  · have h2 : excl₂ ≠ [] := fun h2 => h (by subst h2; exact List.Perm.eq_nil hperm)
    have hany : excl₁.any (fold k) = excl₂.any (fold k) := by
      rw [Bool.eq_iff_iff, List.any_eq_true, List.any_eq_true]
      constructor
      · rintro ⟨e, he, hf⟩; exact ⟨e, hperm.mem_iff.mp he, hf⟩
      · rintro ⟨e, he, hf⟩; exact ⟨e, hperm.mem_iff.mpr he, hf⟩
    rw [lookup_maskSecrets fold excl₁ h, lookup_maskSecrets fold excl₂ h2, hany]

/-- C10 at the default list and its reverse, on the form of scenario 1. -/
theorem maskSecrets_perm_witness :
    ParameterExclusionList.Perm ParameterExclusionList.reverse ∧
    (maskSecrets EqualFold ParameterExclusionList loginForm).lookup "password" =
      (maskSecrets EqualFold ParameterExclusionList.reverse loginForm).lookup "password" :=
  ⟨(List.reverse_perm _).symm,
    maskSecrets_perm EqualFold ParameterExclusionList ParameterExclusionList.reverse
      loginForm "password" (List.reverse_perm _).symm⟩

/-! ## Multipart flattening -/

theorem lookup_Add (v : Values) (key value k : String) :
    (Add v key value).lookup k =
      if k = key then some ((v.lookup key).getD [] ++ [value]) else v.lookup k := by
  unfold Add
  by_cases h : k = key
  · subst h; simp [AList.lookup_insert]
  · simp [h, AList.lookup_insert_ne h]

theorem lookup_foldl_Add {β : Type} (g : β → String) (key k : String) :
    ∀ (vs : List β) (uv : Values),
      (vs.foldl (fun uv vv => Add uv key (g vv)) uv).lookup k =
        if k = key ∧ vs.isEmpty = false then some ((uv.lookup key).getD [] ++ vs.map g)
        else uv.lookup k
  | [], uv => by simp
  | v :: vs, uv => by
    rw [List.foldl_cons, lookup_foldl_Add g key k vs]
    by_cases h : k = key
    · subst h
      cases vs with
      | nil => simp [lookup_Add]
      | cons w ws => simp [lookup_Add]
    · simp [h, lookup_Add]

theorem lookup_foldl_rangeAdd {β : Type} (g : β → String) (k : String) :
    ∀ (l : List (Sigma (fun _ : String => List β))) (uv : Values), l.NodupKeys →
      (l.foldl (fun uv kv => kv.2.foldl (fun uv vv => Add uv kv.1 (g vv)) uv) uv).lookup k =
        match l.dlookup k with
        | some vs => if vs.isEmpty then uv.lookup k
                     else some ((uv.lookup k).getD [] ++ vs.map g)
        | none => uv.lookup k
  | [], uv, _ => by simp
  | ⟨key, vs⟩ :: l, uv, hnd => by
    rw [List.nodupKeys_cons] at hnd
    rw [List.foldl_cons, lookup_foldl_rangeAdd g k l _ hnd.2]
    by_cases hk : k = key
    · subst hk
      have hnone : l.dlookup k = none := List.dlookup_eq_none.mpr hnd.1
      rw [hnone, List.dlookup_cons_eq]
      simp only [lookup_foldl_Add]
      cases vs <;> simp
    · rw [List.dlookup_cons_ne _ _ hk]
      have hsame : (vs.foldl (fun uv vv => Add uv key (g vv)) uv).lookup k = uv.lookup k := by
        rw [lookup_foldl_Add]; simp [hk]
      simp only [hsame]

theorem lookup_rangeAdd {β : Type} (g : β → String) (m : AList (fun _ : String => List β))
    (uv : Values) (k : String) :
    (rangeAdd g m uv).lookup k =
      match m.lookup k with
      | some vs => if vs.isEmpty then uv.lookup k
                   else some ((uv.lookup k).getD [] ++ vs.map g)
      | none => uv.lookup k :=
  lookup_foldl_rangeAdd g k m.entries uv m.nodupKeys

/-- What the flattened mapping stores under a field name: the values of the
value field followed by the file names of the file field, and nothing at all
when there are none. -/
theorem lookup_multipartParamLogger_uv (mp : Form) (k : String) :
    (multipartParamLogger_uv mp).lookup k =
      if (mp.Value.lookup k).getD [] ++
          ((mp.File.lookup k).getD []).map FileHeader.Filename = [] then none
      else some ((mp.Value.lookup k).getD [] ++
          ((mp.File.lookup k).getD []).map FileHeader.Filename) := by
  unfold multipartParamLogger_uv
  rw [lookup_rangeAdd, lookup_rangeAdd]
  cases hV : mp.Value.lookup k with
  | none =>
    cases hF : mp.File.lookup k with
    | none => simp
    | some fs => cases fs <;> simp
  | some vs =>
    cases hF : mp.File.lookup k with
    | none => cases vs <;> simp
    | some fs => cases vs <;> cases fs <;> simp

/-- The multipart structure `note = hi`, `avatar = pic.png` flattens to
`note ↦ ["hi"]`, `avatar ↦ ["pic.png"]`. -/
theorem multipartParamLogger_uv_noteAvatar :
    (multipartParamLogger_uv noteAvatarForm).entries =
      [⟨"avatar", ["pic.png"]⟩, ⟨"note", ["hi"]⟩] := by
  decide

/-- C5 as stated fails: in `emptyNoteForm` no field name is both a value and
a file field and `note` is a value field (with the empty value sequence), yet
`note` is not a field name of the flattened mapping. -/
theorem multipartParamLogger_uv_drops_empty_field :
    (∀ k, k ∈ emptyNoteForm.Value → k ∉ emptyNoteForm.File) ∧
    "note" ∈ emptyNoteForm.Value ∧
    emptyNoteForm.Value.lookup "note" = some [] ∧
    "note" ∉ multipartParamLogger_uv emptyNoteForm ∧
    (multipartParamLogger_uv emptyNoteForm).lookup "note" = none := by
  refine ⟨fun k _ => AList.not_mem_empty k, ?_, ?_, ?_, ?_⟩ <;> decide

/-- C5, amended: when no field name is both a value field and a file field,
the field names of the flattened mapping are exactly the value-field names
and the file-field names whose sequence is not empty; every such value-field
name is associated with its value sequence as it is, and every such
file-field name with the file names of its uploaded files in order. -/
theorem multipartParamLogger_uv_spec (mp : Form)
    (hdisj : ∀ k, k ∈ mp.Value → k ∉ mp.File) (k : String) :
    (k ∈ multipartParamLogger_uv mp ↔
      (∃ vs, mp.Value.lookup k = some vs ∧ vs ≠ []) ∨
      (∃ fs, mp.File.lookup k = some fs ∧ fs ≠ [])) ∧
    (∀ vs, mp.Value.lookup k = some vs → vs ≠ [] →
      (multipartParamLogger_uv mp).lookup k = some vs) ∧
    (∀ fs, mp.File.lookup k = some fs → fs ≠ [] →
      (multipartParamLogger_uv mp).lookup k = some (fs.map FileHeader.Filename)) := by
  have hlook := lookup_multipartParamLogger_uv mp k
  rw [← AList.lookup_isSome, hlook]
  cases hV : mp.Value.lookup k with
  | none =>
    cases hF : mp.File.lookup k with
    | none => simp
    | some fs => cases fs <;> simp
  | some vs =>
    have hmem : k ∈ mp.Value := AList.lookup_isSome.mp (by rw [hV]; rfl)
    have hF : mp.File.lookup k = none := AList.lookup_eq_none.mpr (hdisj k hmem)
    rw [hF]
    cases vs <;> simp

/-- C5, amended, at the structure `note = hi`, `avatar = pic.png` and the
field name `avatar`. -/
theorem multipartParamLogger_uv_spec_witness :
    (∀ k, k ∈ noteAvatarForm.Value → k ∉ noteAvatarForm.File) ∧
    (("avatar" ∈ multipartParamLogger_uv noteAvatarForm ↔
      (∃ vs, noteAvatarForm.Value.lookup "avatar" = some vs ∧ vs ≠ []) ∨
      (∃ fs, noteAvatarForm.File.lookup "avatar" = some fs ∧ fs ≠ [])) ∧
    (∀ vs, noteAvatarForm.Value.lookup "avatar" = some vs → vs ≠ [] →
      (multipartParamLogger_uv noteAvatarForm).lookup "avatar" = some vs) ∧
    (∀ fs, noteAvatarForm.File.lookup "avatar" = some fs → fs ≠ [] →
      (multipartParamLogger_uv noteAvatarForm).lookup "avatar" =
        some (fs.map FileHeader.Filename))) := by
  have hdisj : ∀ k, k ∈ noteAvatarForm.Value → k ∉ noteAvatarForm.File := by
    intro k hk
    have hk1 : k ∈ (∅ : Values).insert "note" ["hi"] := hk
    have hk2 : k = "note" :=
      ((AList.mem_insert _).mp hk1).resolve_right (AList.not_mem_empty k)
    subst hk2
    decide
  exact ⟨hdisj, multipartParamLogger_uv_spec noteAvatarForm hdisj "avatar"⟩

/-! ## Scenario 3 -/

/-- C9 as stated fails: with the default exclusion list, the mapping logged
for the multipart request `CVC = 123`, `attachment = secret.pdf` is not the
mapping with the key `cvc`: it has no key `cvc`. -/
theorem scenario3_not_lower_key :
    ¬ ∀ k, (maskSecrets EqualFold ParameterExclusionList
        (multipartParamLogger_uv attachmentForm)).lookup k = attachmentLowerKey.lookup k := by
  intro h
  have h2 := h "cvc"
  revert h2
  decide

/-! ## The middleware -/

theorem addFormFieldTo_frame {P : Type} (fold : String → String → Bool) (excl : List String)
    (marshal : Values → Except GoError String) (c : Context P) (form : Values) :
    (addFormFieldTo fold excl marshal c form).1.Request = c.Request ∧
    (addFormFieldTo fold excl marshal c form).1.Params = c.Params ∧
    (addFormFieldTo fold excl marshal c form).1.errors = c.errors ∧
    c.fields <+: (addFormFieldTo fold excl marshal c form).1.fields := by
  unfold addFormFieldTo
  dsimp only
  split
  · exact ⟨rfl, rfl, rfl, List.prefix_refl _⟩
  · exact ⟨rfl, rfl, rfl, List.prefix_append _ _⟩

theorem logForm_frame {P : Type} (fold : String → String → Bool) (excl : List String)
    (marshal : Values → Except GoError String) (c : Context P) :
    (logForm fold excl marshal c).1.Request = c.Request ∧
    (logForm fold excl marshal c).1.Params = c.Params ∧
    (logForm fold excl marshal c).1.errors = c.errors ∧
    c.fields <+: (logForm fold excl marshal c).1.fields := by
  unfold logForm
  split
  · next mp _ =>
    unfold multipartParamLogger
    dsimp only
    have h := addFormFieldTo_frame fold excl marshal c (multipartParamLogger_uv mp)
    revert h
    generalize addFormFieldTo fold excl marshal c (multipartParamLogger_uv mp) = r
    rcases r with ⟨c2, _ | err⟩ <;> exact id
  · have h := addFormFieldTo_frame fold excl marshal c c.Request.Form
    revert h
    generalize addFormFieldTo fold excl marshal c c.Request.Form = r
    rcases r with ⟨c2, _ | err⟩ <;> exact id

/-- The deferred function only adds to the two logs: the request and the
parameters are left as they were, and the earlier `LogField` and
`Logger().Error` calls stay in place. -/
theorem deferredLog_frame {P : Type} (fold : String → String → Bool) (excl : List String)
    (marshalForm : Values → Except GoError String) (marshalParams : P → Except GoError String)
    (c : Context P) :
    (deferredLog fold excl marshalForm marshalParams c).Request = c.Request ∧
    (deferredLog fold excl marshalForm marshalParams c).Params = c.Params ∧
    c.errors <+: (deferredLog fold excl marshalForm marshalParams c).errors ∧
    c.fields <+: (deferredLog fold excl marshalForm marshalParams c).fields := by
  have hstep : ∀ c2 : Context P, c2.Request = c.Request → c2.Params = c.Params →
      c.errors <+: c2.errors → c.fields <+: c2.fields →
      (match marshalParams c2.Params with
        | .error err => (c2.LoggerError err).LogField "params" ""
        | .ok b => c2.LogField "params" b).Request = c.Request ∧
      (match marshalParams c2.Params with
        | .error err => (c2.LoggerError err).LogField "params" ""
        | .ok b => c2.LogField "params" b).Params = c.Params ∧
      c.errors <+: (match marshalParams c2.Params with
        | .error err => (c2.LoggerError err).LogField "params" ""
        | .ok b => c2.LogField "params" b).errors ∧
      c.fields <+: (match marshalParams c2.Params with
        | .error err => (c2.LoggerError err).LogField "params" ""
        | .ok b => c2.LogField "params" b).fields := by
    intro c2 hR hP hE hF
    cases marshalParams c2.Params with
    | error err =>
      exact ⟨hR, hP, hE.trans (List.prefix_append _ _), hF.trans (List.prefix_append _ _)⟩
    | ok b => exact ⟨hR, hP, hE, hF.trans (List.prefix_append _ _)⟩
  unfold deferredLog
  by_cases hget : (c.Request.Method != "GET") = true
  · simp only [hget, if_true]
    obtain ⟨hR, hP, hE, hF⟩ := logForm_frame fold excl marshalForm c
    revert hR hP hE hF
    cases logForm fold excl marshalForm c with
    | mk c2 r =>
      intro hR hP hE hF
      cases r with
      | none => exact hstep c2 hR hP (by rw [hE]) hF
      | some err =>
        exact hstep (c2.LoggerError err) hR hP
          (by show c.errors <+: c2.errors ++ [err]; rw [hE]; exact List.prefix_append _ _) hF
  · simp only [hget, Bool.false_eq_true, if_false]
    exact hstep c rfl rfl (List.prefix_refl _) (List.prefix_refl _)

/-- When the method is `GET` and the parameters serialise to `s`, the deferred
function makes the single call `LogField("params", s)`. -/
theorem deferredLog_GET {P : Type} (fold : String → String → Bool) (excl : List String)
    (marshalForm : Values → Except GoError String) (marshalParams : P → Except GoError String)
    (c : Context P) (s : String) (hget : c.Request.Method = "GET")
    (hok : marshalParams c.Params = .ok s) :
    deferredLog fold excl marshalForm marshalParams c = c.LogField "params" s := by
  unfold deferredLog
  simp [hget, hok]

/-- When serialising the masked form fails, `addFormFieldTo` makes no
`LogField` call and returns the error. -/
theorem addFormFieldTo_marshal_error {P : Type} (fold : String → String → Bool)
    (excl : List String) (marshal : Values → Except GoError String) (c : Context P)
    (form : Values) (err : GoError) (herr : marshal (maskSecrets fold excl form) = .error err) :
    addFormFieldTo fold excl marshal c form = (c, some err) := by
  unfold addFormFieldTo
  simp [herr]

/-- When serialising the parameters fails with `err`, the deferred function
reports `err` last and then still makes the call `LogField("params", "")`. -/
theorem deferredLog_params_marshal_error {P : Type} (fold : String → String → Bool)
    (excl : List String) (marshalForm : Values → Except GoError String)
    (marshalParams : P → Except GoError String) (c : Context P) (err : GoError)
    (herr : marshalParams c.Params = .error err) :
    (deferredLog fold excl marshalForm marshalParams c).fields.getLast? = some ("params", "") ∧
    (deferredLog fold excl marshalForm marshalParams c).errors.getLast? = some err := by
  have hstep : ∀ c2 : Context P, c2.Params = c.Params →
      (match marshalParams c2.Params with
        | .error err => (c2.LoggerError err).LogField "params" ""
        | .ok b => c2.LogField "params" b).fields.getLast? = some ("params", "") ∧
      (match marshalParams c2.Params with
        | .error err => (c2.LoggerError err).LogField "params" ""
        | .ok b => c2.LogField "params" b).errors.getLast? = some err := by
    intro c2 hP
    rw [hP, herr]
    simp [Context.LogField, Context.LoggerError]
  unfold deferredLog
  by_cases hget : (c.Request.Method != "GET") = true
  · simp only [hget, if_true]
    obtain ⟨_, hP, _, _⟩ := logForm_frame fold excl marshalForm c
    revert hP
    generalize logForm fold excl marshalForm c = r
    rcases r with ⟨c2, _ | e⟩
    · exact fun hP => hstep c2 hP
    · exact fun hP => hstep (c2.LoggerError e) hP
  · simp only [hget, Bool.false_eq_true, if_false]
    exact hstep c rfl

/-- When serialising the masked form fails with `err`, `logForm` makes no
`LogField` call and returns `err` wrapped by `errors.WithStack`. -/
theorem logForm_marshal_error {P : Type} (fold : String → String → Bool)
    (excl : List String) (marshal : Values → Except GoError String) (c : Context P)
    (err : GoError)
    (herr : marshal (maskSecrets fold excl
      (match c.Request.MultipartForm with
        | some mp => multipartParamLogger_uv mp
        | none => c.Request.Form)) = .error err) :
    logForm fold excl marshal c = (c, some (GoError.withStack err)) := by
  unfold logForm
  split
  · next mp hmp =>
    rw [hmp] at herr
    unfold multipartParamLogger
    dsimp only
    rw [addFormFieldTo_marshal_error fold excl marshal c _ err herr]
  · next hmp =>
    rw [hmp] at herr
    rw [addFormFieldTo_marshal_error fold excl marshal c _ err herr]

/-- C6: the handler produced by `Middleware` returns exactly what the wrapped
handler returned, whatever happens in the logging step (any serialiser,
failing or not, any exclusion list); the logging step leaves the request and
the parameters as the wrapped handler left them and only adds calls to the
field log and to the error log. -/
theorem Middleware_returns_next {P : Type} (fold : String → String → Bool)
    (excl : List String) (marshalForm : Values → Except GoError String)
    (marshalParams : P → Except GoError String) (next : Handler P) (c : Context P) :
    (Middleware fold excl marshalForm marshalParams next c).2 = (next c).2 ∧
    (Middleware fold excl marshalForm marshalParams next c).1.Request = (next c).1.Request ∧
    (Middleware fold excl marshalForm marshalParams next c).1.Params = (next c).1.Params ∧
    (next c).1.errors <+: (Middleware fold excl marshalForm marshalParams next c).1.errors ∧
    (next c).1.fields <+: (Middleware fold excl marshalForm marshalParams next c).1.fields :=
  ⟨rfl, deferredLog_frame fold excl marshalForm marshalParams (next c).1⟩

/-- C7: when the request the wrapped handler leaves behind has method `GET`
and its parameters serialise to `s`, then, whatever the wrapped handler
returned, the logging step makes exactly one `LogField` call, with key
`params` and value `s`, the serialisation of the parameters themselves: no
`form` field is attached and nothing is masked. -/
theorem Middleware_GET {P : Type} (fold : String → String → Bool)
    (excl : List String) (marshalForm : Values → Except GoError String)
    (marshalParams : P → Except GoError String) (next : Handler P) (c : Context P)
    (s : String) (hget : (next c).1.Request.Method = "GET")
    (hok : marshalParams (next c).1.Params = .ok s) :
    (Middleware fold excl marshalForm marshalParams next c).1.fields =
      (next c).1.fields ++ [("params", s)] := by
  show (deferredLog fold excl marshalForm marshalParams (next c).1).fields = _
  rw [deferredLog_GET fold excl marshalForm marshalParams (next c).1 s hget hok]
  rfl

/-- C7 at a `GET` request with the parameter `password=hunter2` and a wrapped
handler that returns an error: the only field logged is `params`, with the
password in clear. -/
theorem Middleware_GET_witness :
    (failingHandler getContext).1.Request.Method = "GET" ∧
    sampleMarshal (failingHandler getContext).1.Params =
      .ok "\x7b\"password\":[\"hunter2\"]\x7d" ∧
    (Middleware EqualFold ParameterExclusionList sampleMarshal sampleMarshal
        failingHandler getContext).1.fields =
      (failingHandler getContext).1.fields ++
        [("params", "\x7b\"password\":[\"hunter2\"]\x7d")] :=
  ⟨rfl, rfl,
    Middleware_GET EqualFold ParameterExclusionList sampleMarshal sampleMarshal
      failingHandler getContext _ rfl rfl⟩

/-- C8 at the failing input: on a `GET` request whose parameters cannot be
serialised, the logging step reports the error and still makes the call
`LogField("params", "")`: the `params` field is attached, with the empty
string as value, instead of being left out. -/
theorem Middleware_params_marshal_failure :
    (Middleware EqualFold ParameterExclusionList sampleMarshal failingMarshal
        okHandler getContext).1.fields = [("params", "")] ∧
    (Middleware EqualFold ParameterExclusionList sampleMarshal failingMarshal
        okHandler getContext).1.errors = [GoError.mk "json: unsupported value"] := by
  decide

/-! ## Scenario 3 through the middleware -/

/-- The masked flattening of the multipart structure of scenario 3 under the
default exclusion list. -/
theorem maskSecrets_attachmentForm :
    maskSecrets EqualFold ParameterExclusionList (multipartParamLogger_uv attachmentForm) =
      attachmentSameKey :=
  AList.ext (by decide)

/-- C9, amended: with the default exclusion list, when the request the
wrapped handler leaves behind has method `POST` and carries the multipart
structure `CVC = 123`, `attachment = secret.pdf`, the handler produced by
`Middleware` logs under `form` the serialisation of a mapping that is exactly
`attachment ↦ ["secret.pdf"]`, `CVC ↦ ["[FILTERED]"]`, the key `CVC` being
kept as submitted: the `form` field is the first field the logging step adds
(it is left out only when that serialisation fails) and `params` follows. -/
theorem scenario3_same_key {P : Type} (marshalForm : Values → Except GoError String)
    (marshalParams : P → Except GoError String) (next : Handler P) (c : Context P)
    (hpost : (next c).1.Request.Method = "POST")
    (hmp : (next c).1.Request.MultipartForm = some attachmentForm) :
    ∃ logged : Values,
      (∀ k, logged.lookup k = attachmentSameKey.lookup k) ∧
      (Middleware EqualFold ParameterExclusionList marshalForm marshalParams next c).1.fields =
        (next c).1.fields ++
          (match marshalForm logged with
            | .ok b => [("form", b)]
            | .error _ => []) ++
          [("params", match marshalParams (next c).1.Params with
            | .ok b => b
            | .error _ => "")] := by
  refine ⟨maskSecrets EqualFold ParameterExclusionList (multipartParamLogger_uv attachmentForm),
    fun k => by rw [maskSecrets_attachmentForm], ?_⟩
  show (deferredLog EqualFold ParameterExclusionList marshalForm marshalParams (next c).1).fields
    = _
  generalize (next c).1 = c1 at hpost hmp ⊢
  have hne : ("POST" != "GET") = true := by decide
  unfold deferredLog logForm multipartParamLogger addFormFieldTo
  simp only [hpost, hmp, hne, if_true]
  cases hF : marshalForm (maskSecrets EqualFold ParameterExclusionList
      (multipartParamLogger_uv attachmentForm)) with
  | error e =>
    cases hP : marshalParams c1.Params with
    | error e2 => simp [Context.LogField, Context.LoggerError, hP]
    | ok b2 => simp [Context.LogField, Context.LoggerError, hP]
  | ok b =>
    cases hP : marshalParams c1.Params with
    | error e2 => simp [Context.LogField, Context.LoggerError, hP]
    | ok b2 => simp [Context.LogField, Context.LoggerError, hP]

/-- C9, amended, at the request `attachmentContext` with a handler that
returns `nil` and the sample serialiser. -/
theorem scenario3_same_key_witness :
    (okHandler attachmentContext).1.Request.Method = "POST" ∧
    (okHandler attachmentContext).1.Request.MultipartForm = some attachmentForm ∧
    ∃ logged : Values,
      (∀ k, logged.lookup k = attachmentSameKey.lookup k) ∧
      (Middleware EqualFold ParameterExclusionList sampleMarshal sampleMarshal
          okHandler attachmentContext).1.fields =
        (okHandler attachmentContext).1.fields ++
          (match sampleMarshal logged with
            | .ok b => [("form", b)]
            | .error _ => []) ++
          [("params", match sampleMarshal (okHandler attachmentContext).1.Params with
            | .ok b => b
            | .error _ => "")] :=
  ⟨rfl, rfl,
    scenario3_same_key sampleMarshal sampleMarshal okHandler attachmentContext rfl rfl⟩

/-- The log of scenario 3 under the sample serialiser: the `form` field shows
the key `CVC` with the filtered indicator and the file name of the upload. -/
theorem Middleware_attachmentContext_fields :
    (Middleware EqualFold ParameterExclusionList sampleMarshal sampleMarshal
        okHandler attachmentContext).1.fields =
      [("form", "\x7b\"CVC\":[\"[FILTERED]\"],\"attachment\":[\"secret.pdf\"]\x7d"),
       ("params", "\x7b\x7d")] := by
  decide

end ParamLogger
